import Mathlib

/-!
Shallow embedding of the core of the cloudresty/go-elastic client library,
together with proofs about its documented behaviour.

Modelling conventions:

* Go `map[string]any` values are modelled as association lists
  (`Obj = List (String × GoVal)`); a Go map is unordered, so all statements
  about maps go through `mlookup`, and `mset` (replace-or-append) models
  Go map assignment `m[k] = v`.
* The dynamic type of a Go `any` value is captured by the `GoVal`
  constructors; in particular the distinct Go runtime types `[]any`,
  `[]map[string]any` and `[]string`, which the source discriminates with
  type assertions, are distinct constructors.
* `time.Duration` is an `Int` (nanoseconds), as in Go.
* Wall-clock time, ULID generation and the JSON codec for user types are
  external capabilities; they enter the model as explicit parameters
  (`now`, `gen`, `decode`).
* Fallible Go functions (returning `error` or panicking) are modelled with
  `Except String`; a computation that blocks forever (a goroutine stuck on
  a mutex) is modelled with `Option`, `none` meaning no termination.
-/

/-- A Go `any` value as it occurs in the JSON-shaped data of the client:
strings, ints, bools, nulls, maps and the three slice types the source
distinguishes by type assertion. -/
inductive GoVal where
  | str (s : String)
  | int (n : Int)
  | gbool (b : Bool)
  | gnull
  | obj (fields : List (String × GoVal))
  | arrAny (xs : List GoVal)
  | arrObj (xs : List (List (String × GoVal)))
  | arrStr (xs : List String)
deriving Repr

/-- A Go `map[string]any`, modelled as an insertion-ordered association list
standing for the unordered Go map. -/
abbrev Obj := List (String × GoVal)

/-- Go map read `v, ok := m[k]`: the value at the first matching key. -/
def mlookup (m : Obj) (k : String) : Option GoVal :=
  match m with
  | [] => none
  | (k', v) :: rest => if k' = k then some v else mlookup rest k

/-- Go map write `m[k] = v`: replace the existing entry or append a new one. -/
def mset (m : Obj) (k : String) (v : GoVal) : Obj :=
  match m with
  | [] => [(k, v)]
  | (k', v') :: rest => if k' = k then (k, v) :: rest else (k', v') :: mset rest k v

namespace Elastic

/-- The `IDMode` ID-generation strategy from `client.go`. -/
inductive IDMode where
  | elastic
  | ulid
  | custom
deriving Repr, DecidableEq

/-- The configuration fields of `Config` (`client.go`) that the verified
operations read.  Durations are nanoseconds, as Go `time.Duration`. -/
structure Config where
  hosts : List String
  cloudID : String
  connectTimeout : Int
  requestTimeout : Int
  maxRetries : Int
  retryOnStatus : List Int
  reconnectDelay : Int
  maxReconnectDelay : Int
  reconnectBackoff : Rat
  maxReconnectAttempts : Int
  healthCheckInterval : Int
  idMode : String
  logLevel : String
  logFormat : String
deriving Repr, DecidableEq

/-- The struct-tag defaults of `Config` (`client.go`) for the modelled
fields, as applied by the environment binder when no variable is set. -/
def defaultConfig : Config :=
  { hosts := ["localhost:9200"]
  , cloudID := ""
  , connectTimeout := 10 * 1000000000
  , requestTimeout := 30 * 1000000000
  , maxRetries := 3
  , retryOnStatus := []
  , reconnectDelay := 5 * 1000000000
  , maxReconnectDelay := 60 * 1000000000
  , reconnectBackoff := 2
  , maxReconnectAttempts := 10
  , healthCheckInterval := 30 * 1000000000
  , idMode := "elastic"
  , logLevel := "info"
  , logFormat := "json" }

/-- The zero value `&Config{}`, produced by the option constructors when
environment loading fails. -/
def emptyConfig : Config :=
  { hosts := []
  , cloudID := ""
  , connectTimeout := 0
  , requestTimeout := 0
  , maxRetries := 0
  , retryOnStatus := []
  , reconnectDelay := 0
  , maxReconnectDelay := 0
  , reconnectBackoff := 0
  , maxReconnectAttempts := 0
  , healthCheckInterval := 0
  , idMode := ""
  , logLevel := ""
  , logFormat := "" }

/-- `Client.enhanceDocument`, map branch (`enhanceDocument` in the documents
service file): shallow-copy the map, inject `_id` per id-mode when absent,
then enforce the timestamp invariants.  `gen` is the external ULID
generator, `now` the current wall time. -/
def enhanceDocMap (idMode : IDMode) (gen : String) (now : GoVal) (doc : Obj) : Obj :=
  let docMap := doc
  let docMap :=
    if idMode ≠ IDMode.custom then
      match mlookup docMap "_id" with
      | some _ => docMap
      | none =>
        match idMode with
        | IDMode.ulid => mset docMap "_id" (GoVal.str gen)
        | IDMode.elastic => docMap
        | IDMode.custom => docMap
    else docMap
  let docMap :=
    match mlookup docMap "created_at" with
    | some _ => docMap
    | none => mset docMap "created_at" now
  mset docMap "updated_at" now

/-- `Client.enhanceDocument` on an arbitrary `any` document: a map is
shallow-copied and enhanced; any other value is round-tripped through the
JSON codec, and since a non-object JSON value cannot unmarshal into
`map[string]any`, that path returns the empty map (logged in the source). -/
def enhanceDocument (idMode : IDMode) (gen : String) (now : GoVal) (doc : GoVal) : Obj :=
  match doc with
  | GoVal.obj m => enhanceDocMap idMode gen now m
  | _ => []

/-- `BulkOperation` (`BulkResource` file): the accumulated form of one bulk
operation.  `document = none` models a Go `nil` document. -/
structure BulkOperation where
  action : String
  index : String
  id : String
  document : Option GoVal
  script : Option Obj
  upsertDoc : Option Obj
deriving Repr

/-- `BulkIndexer.Update(id, doc)` (`documents_bulk.go`): stores the partial
document in the `Document` field; `UpsertDoc` and `Script` stay nil. -/
def bulkIndexerUpdate (indexName : String) (id : String) (doc : GoVal) : BulkOperation :=
  { action := "update", index := indexName, id := id
  , document := some doc, script := none, upsertDoc := none }

/-- `BulkIndexer.Index(id, doc)` (`documents_bulk.go`). -/
def bulkIndexerIndex (indexName : String) (id : String) (doc : GoVal) : BulkOperation :=
  { action := "index", index := indexName, id := id
  , document := some doc, script := none, upsertDoc := none }

/-- `BulkIndexer.CreateWithID(id, doc)` (`documents_bulk.go`). -/
def bulkIndexerCreateWithID (indexName : String) (id : String) (doc : GoVal) : BulkOperation :=
  { action := "create", index := indexName, id := id
  , document := some doc, script := none, upsertDoc := none }

/-- `BulkIndexer.Delete(id)` (`documents_bulk.go`). -/
def bulkIndexerDelete (indexName : String) (id : String) : BulkOperation :=
  { action := "delete", index := indexName, id := id
  , document := none, script := none, upsertDoc := none }

/-- The action line built by `BulkResource.Execute` for one operation:
`{<action>: {"_index": I}}`, with `"_id"` added when `op.ID != ""`. -/
def bulkActionLine (op : BulkOperation) : GoVal :=
  let inner : Obj := [("_index", GoVal.str op.index)]
  let inner := if op.id ≠ "" then mset inner "_id" (GoVal.str op.id) else inner
  GoVal.obj [(op.action, GoVal.obj inner)]

/-- The body (document) lines built by `BulkResource.Execute` for one
operation: the switch on `op.Action` after the action line.  `index` and
`create` write the enhanced document when one is present; `update` always
writes the update map assembled from `UpsertDoc` and `Script`; every other
action (in particular `delete`) writes nothing. -/
def bulkBodyLines (idMode : IDMode) (gen : String) (now : GoVal) (op : BulkOperation) :
    List GoVal :=
  if op.action = "index" ∨ op.action = "create" then
    match op.document with
    | some d => [GoVal.obj (enhanceDocument idMode gen now d)]
    | none => []
  else if op.action = "update" then
    let updateDoc : Obj := []
    let updateDoc :=
      match op.upsertDoc with
      | some u => mset (mset updateDoc "doc" (GoVal.obj u)) "doc_as_upsert" (GoVal.gbool true)
      | none => updateDoc
    let updateDoc :=
      match op.script with
      | some s => mset updateDoc "script" (GoVal.obj s)
      | none => updateDoc
    [GoVal.obj updateDoc]
  else []

/-- The serialization loop of `BulkResource.Execute`: the newline-delimited
payload, modelled as the ordered list of JSON lines appended to the
`strings.Builder`. -/
def bulkBuildBody (idMode : IDMode) (gen : String) (now : GoVal)
    (operations : List BulkOperation) : List GoVal :=
  operations.foldl
    (fun acc op => acc ++ (bulkActionLine op :: bulkBodyLines idMode gen now op)) []

/-- `BulkResource.Execute` up to the network dispatch: rejects an empty
operation list, otherwise produces the request payload lines. -/
def bulkExecuteBody (idMode : IDMode) (gen : String) (now : GoVal)
    (operations : List BulkOperation) : Except String (List GoVal) :=
  match operations with
  | [] => Except.error "no operations provided"
  | _ :: _ => Except.ok (bulkBuildBody idMode gen now operations)

end Elastic

namespace Query

/-- A query `Builder` (`query/builder.go`) is identified with its internal
`query map[string]any`. -/
abbrev Builder := Obj

/-- `Builder.Build()`: returns the internal query map. -/
def Build (b : Builder) : Obj := b

/-- `query.New()`: a fresh BOOL builder with the four empty clause lists. -/
def New : Builder :=
  [("bool", GoVal.obj
    [ ("must", GoVal.arrAny [])
    , ("must_not", GoVal.arrAny [])
    , ("should", GoVal.arrAny [])
    , ("filter", GoVal.arrAny []) ])]

/-- `query.Term(field, value)`. -/
def Term (field : String) (value : GoVal) : Builder :=
  [("term", GoVal.obj [(field, value)])]

/-- `query.Terms(field, values...)`. -/
def Terms (field : String) (values : List GoVal) : Builder :=
  [("terms", GoVal.obj [(field, GoVal.arrAny values)])]

/-- `query.Match(field, text)`. -/
def Match (field : String) (text : String) : Builder :=
  [("match", GoVal.obj [(field, GoVal.str text)])]

/-- `query.MatchPhrase(field, text)`. -/
def MatchPhrase (field : String) (text : String) : Builder :=
  [("match_phrase", GoVal.obj [(field, GoVal.str text)])]

/-- `query.MultiMatch(text, fields...)`. -/
def MultiMatch (text : String) (fields : List String) : Builder :=
  [("multi_match", GoVal.obj [("query", GoVal.str text), ("fields", GoVal.arrStr fields)])]

/-- `query.MatchAll()`. -/
def MatchAll : Builder := [("match_all", GoVal.obj [])]

/-- `query.MatchNone()`. -/
def MatchNone : Builder := [("match_none", GoVal.obj [])]

/-- `query.Exists(field)`. -/
def Exists (field : String) : Builder :=
  [("exists", GoVal.obj [("field", GoVal.str field)])]

/-- `query.IDs(ids...)`. -/
def IDs (ids : List String) : Builder :=
  [("ids", GoVal.obj [("values", GoVal.arrStr ids)])]

/-- `query.Wildcard(field, pattern)`. -/
def Wildcard (field : String) (pattern : String) : Builder :=
  [("wildcard", GoVal.obj [(field, GoVal.str pattern)])]

/-- `query.Regexp(field, pattern)`. -/
def Regexp (field : String) (pattern : String) : Builder :=
  [("regexp", GoVal.obj [(field, GoVal.str pattern)])]

/-- `query.Fuzzy(field, value)`. -/
def Fuzzy (field : String) (value : String) : Builder :=
  [("fuzzy", GoVal.obj [(field, GoVal.str value)])]

/-- `query.RangeBuilder`: field plus the partially built range body. -/
structure RangeBuilder where
  field : String
  query : Obj

/-- `query.Range(field)`. -/
def Range (field : String) : RangeBuilder := { field := field, query := [] }

/-- `RangeBuilder.Gte(value)`. -/
def RangeBuilder.Gte (r : RangeBuilder) (value : GoVal) : RangeBuilder :=
  { r with query := mset r.query "gte" value }

/-- `RangeBuilder.Gt(value)`. -/
def RangeBuilder.Gt (r : RangeBuilder) (value : GoVal) : RangeBuilder :=
  { r with query := mset r.query "gt" value }

/-- `RangeBuilder.Lte(value)`. -/
def RangeBuilder.Lte (r : RangeBuilder) (value : GoVal) : RangeBuilder :=
  { r with query := mset r.query "lte" value }

/-- `RangeBuilder.Lt(value)`. -/
def RangeBuilder.Lt (r : RangeBuilder) (value : GoVal) : RangeBuilder :=
  { r with query := mset r.query "lt" value }

/-- `RangeBuilder.Build()`: lift the range body into a query builder. -/
def RangeBuilder.Build (r : RangeBuilder) : Builder :=
  [("range", GoVal.obj [(r.field, GoVal.obj r.query)])]

/-- The current contents of one clause list inside a bool query map,
as read by `must, _ := boolQuery["must"].([]any)`: a failed assertion
yields the empty (nil) slice. -/
def clauseOf (boolQuery : Obj) (clause : String) : List GoVal :=
  match mlookup boolQuery clause with
  | some (GoVal.arrAny xs) => xs
  | _ => []

/-- `Builder.Must(queries...)`: appends the built children to the `must`
clause of a BOOL builder; on any non-BOOL builder the source panics, which
the embedding models as `Except.error` carrying the panic message. -/
def Must (b : Builder) (queries : List Builder) : Except String Builder :=
  match mlookup b "bool" with
  | some (GoVal.obj boolQuery) =>
    let must := clauseOf boolQuery "must" ++ queries.map (fun q => GoVal.obj (Build q))
    Except.ok (mset b "bool" (GoVal.obj (mset boolQuery "must" (GoVal.arrAny must))))
  | _ => Except.error
      "query: cannot call Must() on a non-bool query builder (e.g., a Term, Match, or Range query)"

/-- `Builder.Filter(queries...)`. -/
def Filter (b : Builder) (queries : List Builder) : Except String Builder :=
  match mlookup b "bool" with
  | some (GoVal.obj boolQuery) =>
    let filter := clauseOf boolQuery "filter" ++ queries.map (fun q => GoVal.obj (Build q))
    Except.ok (mset b "bool" (GoVal.obj (mset boolQuery "filter" (GoVal.arrAny filter))))
  | _ => Except.error
      "query: cannot call Filter() on a non-bool query builder (e.g., a Term, Match, or Range query)"

/-- `Builder.Should(queries...)`. -/
def Should (b : Builder) (queries : List Builder) : Except String Builder :=
  match mlookup b "bool" with
  | some (GoVal.obj boolQuery) =>
    let should := clauseOf boolQuery "should" ++ queries.map (fun q => GoVal.obj (Build q))
    Except.ok (mset b "bool" (GoVal.obj (mset boolQuery "should" (GoVal.arrAny should))))
  | _ => Except.error
      "query: cannot call Should() on a non-bool query builder (e.g., a Term, Match, or Range query)"

/-- `Builder.MustNot(queries...)`. -/
def MustNot (b : Builder) (queries : List Builder) : Except String Builder :=
  match mlookup b "bool" with
  | some (GoVal.obj boolQuery) =>
    let mustNot := clauseOf boolQuery "must_not" ++ queries.map (fun q => GoVal.obj (Build q))
    Except.ok (mset b "bool" (GoVal.obj (mset boolQuery "must_not" (GoVal.arrAny mustNot))))
  | _ => Except.error
      "query: cannot call MustNot() on a non-bool query builder (e.g., a Term, Match, or Range query)"

/-- `Builder.MinimumShouldMatch(count)`. -/
def MinimumShouldMatch (b : Builder) (count : Int) : Except String Builder :=
  match mlookup b "bool" with
  | some (GoVal.obj boolQuery) =>
    Except.ok (mset b "bool" (GoVal.obj (mset boolQuery "minimum_should_match" (GoVal.int count))))
  | _ => Except.error
      "query: cannot call MinimumShouldMatch() on a non-bool query builder (e.g., a Term, Match, or Range query)"

/-- Whether a builder wraps a bool query, i.e. whether the type assertion
`b.query["bool"].(map[string]any)` succeeds. -/
def isBool (b : Builder) : Bool :=
  match mlookup b "bool" with
  | some (GoVal.obj _) => true
  | _ => false

end Query

namespace Elastic

/-- The enumerated search options of the search helpers file
(`BuildSearchQuery` and the `SearchOption` constructors), as a closed
option datatype: each constructor carries the arguments of the
corresponding `With...` function. -/
inductive SOpt where
  | indices (xs : List String)
  | size (n : Int)
  | fromOpt (n : Int)
  | sortOpt (sorts : List Obj)
  | source (includes : List String)
  | aggs (m : Obj)
  | timeout (s : String)

/-- The closure returned by the corresponding `With...` constructor,
applied to the request map.  The type switches on the stored dynamic
values mirror the source. -/
def applySOpt (query : Obj) (o : SOpt) : Obj :=
  match o with
  | SOpt.indices xs => mset query "indices" (GoVal.arrStr xs)
  | SOpt.size n => mset query "size" (GoVal.int n)
  | SOpt.fromOpt n => mset query "from" (GoVal.int n)
  | SOpt.sortOpt sorts =>
    match mlookup query "sort" with
    | some (GoVal.arrObj existingSorts) => mset query "sort" (GoVal.arrObj (existingSorts ++ sorts))
    | some _ => mset query "sort" (GoVal.arrObj sorts)
    | none => mset query "sort" (GoVal.arrObj sorts)
  | SOpt.source includes =>
    match mlookup query "_source" with
    | some (GoVal.str v) => mset query "_source" (GoVal.arrStr (v :: includes))
    | some (GoVal.arrStr v) => mset query "_source" (GoVal.arrStr (v ++ includes))
    | some _ =>
      match includes with
      | [i0] => mset query "_source" (GoVal.str i0)
      | _ => mset query "_source" (GoVal.arrStr includes)
    | none =>
      match includes with
      | [i0] => mset query "_source" (GoVal.str i0)
      | _ => mset query "_source" (GoVal.arrStr includes)
  | SOpt.aggs m => mset query "aggs" (GoVal.obj m)
  | SOpt.timeout s => mset query "timeout" (GoVal.str s)

/-- `BuildSearchQuery(query, options...)`: seed `{query: ...}` and apply
the options in order. -/
def buildSearchQuery (query : Obj) (options : List SOpt) : Obj :=
  options.foldl applySOpt [("query", GoVal.obj query)]

/-- The value a single option writes for a scalar key, `none` when the
option is of a different kind; used to state the overwrite property. -/
def scalarWrite (key : String) (o : SOpt) : Option GoVal :=
  match key, o with
  | "indices", SOpt.indices xs => some (GoVal.arrStr xs)
  | "size", SOpt.size n => some (GoVal.int n)
  | "from", SOpt.fromOpt n => some (GoVal.int n)
  | "aggs", SOpt.aggs m => some (GoVal.obj m)
  | "timeout", SOpt.timeout s => some (GoVal.str s)
  | _, _ => none

/-- The value of a scalar key after a sequence of options: the write of the
last same-kind option, or the starting value when none occurs. -/
def lastScalar (key : String) (acc : Option GoVal) : List SOpt → Option GoVal
  | [] => acc
  | o :: rest =>
    lastScalar key (match scalarWrite key o with
      | some v => some v
      | none => acc) rest

/-- The accumulated sort list after a sequence of options: `none` when no
`WithSort` occurred, otherwise the concatenation of all sort arguments. -/
def sortAcc (acc : Option (List Obj)) : List SOpt → Option (List Obj)
  | [] => acc
  | SOpt.sortOpt xs :: rest => sortAcc (some (acc.getD [] ++ xs)) rest
  | _ :: rest => sortAcc acc rest

/-- The accumulated source-field list after a sequence of options. -/
def sourceAcc (acc : Option (List String)) : List SOpt → Option (List String)
  | [] => acc
  | SOpt.source xs :: rest => sourceAcc (some (acc.getD [] ++ xs)) rest
  | _ :: rest => sourceAcc acc rest

/-- Relates the stored `_source` value to the accumulated field list: the
source stores a single include as a bare string and several as a string
slice, so the stored value reads back as exactly the accumulated fields. -/
def sourceState (m : Obj) (acc : Option (List String)) : Prop :=
  match acc with
  | none => mlookup m "_source" = none
  | some xs =>
    mlookup m "_source" = some (GoVal.arrStr xs) ∨
    ∃ x, xs = [x] ∧ mlookup m "_source" = some (GoVal.str x)

/-- One hit of the untyped `SearchResponse` (`Hit` in the response-types
file); `source = none` models a JSON-absent (`nil`) `_source` map. -/
structure Hit where
  index : String
  typ : String
  id : String
  score : Rat
  source : Option Obj
deriving Repr

/-- The untyped `SearchResponse` fields read by `ConvertSearchResponse`. -/
structure SearchResponse where
  took : Int
  timedOut : Bool
  scrollID : String
  shardsTotal : Int
  shardsSuccessful : Int
  shardsSkipped : Int
  shardsFailed : Int
  totalValue : Int
  totalRelation : String
  maxScore : Rat
  hits : List Hit
  aggregations : Obj
deriving Repr

/-- `TypedHit[T]` as produced by `ConvertSearchResponse`. -/
structure TypedHit (T : Type) where
  index : String
  typ : String
  id : String
  score : Rat
  source : T
deriving Repr

/-- `SearchResult[T]` as produced by `ConvertSearchResponse`. -/
structure SearchResult (T : Type) where
  took : Int
  timedOut : Bool
  scrollID : String
  shardsTotal : Int
  shardsSuccessful : Int
  shardsSkipped : Int
  shardsFailed : Int
  totalValue : Int
  totalRelation : String
  maxScore : Rat
  hits : List (TypedHit T)
  aggregations : Obj
deriving Repr

/-- The hit-conversion loop of `ConvertSearchResponse`: each non-nil source
is round-tripped through the codec into `T` (`decode` bundles the
marshal/unmarshal pair; marshalling a JSON-shaped map cannot fail), a nil
source leaves the zero value `dflt`, and the first decode failure aborts
the whole conversion with an error naming the target type. -/
def convertHits (decode : Obj → Except String T) (typeName : String) (dflt : T) :
    List Hit → Except String (List (TypedHit T))
  | [] => Except.ok []
  | hit :: rest =>
    match hit.source with
    | none =>
      match convertHits decode typeName dflt rest with
      | Except.ok typedRest =>
        Except.ok ({ index := hit.index, typ := hit.typ, id := hit.id
                   , score := hit.score, source := dflt } :: typedRest)
      | Except.error e => Except.error e
    | some m =>
      match decode m with
      | Except.error e =>
        Except.error ("failed to unmarshal hit source to type " ++ typeName ++ ": " ++ e)
      | Except.ok doc =>
        match convertHits decode typeName dflt rest with
        | Except.ok typedRest =>
          Except.ok ({ index := hit.index, typ := hit.typ, id := hit.id
                     , score := hit.score, source := doc } :: typedRest)
        | Except.error e => Except.error e

/-- `ConvertSearchResponse[T]` (`search_result.go`). -/
def convertSearchResponse (decode : Obj → Except String T) (typeName : String) (dflt : T)
    (response : SearchResponse) : Except String (SearchResult T) :=
  match convertHits decode typeName dflt response.hits with
  | Except.error e => Except.error e
  | Except.ok typedHits =>
    Except.ok
      { took := response.took
      , timedOut := response.timedOut
      , scrollID := response.scrollID
      , shardsTotal := response.shardsTotal
      , shardsSuccessful := response.shardsSuccessful
      , shardsSkipped := response.shardsSkipped
      , shardsFailed := response.shardsFailed
      , totalValue := response.totalValue
      , totalRelation := response.totalRelation
      , maxScore := response.maxScore
      , hits := typedHits
      , aggregations := response.aggregations }

/-- `SearchResult[T].Documents()`: the typed sources in hit order. -/
def SearchResult.documents (sr : SearchResult T) : List T :=
  sr.hits.map (fun hit => hit.source)

/-- The outcome the transport delivers for one request: a transport-level
error, or a response with an HTTP status code. -/
inductive HTTPOutcome where
  | transportError (e : String)
  | status (code : Nat)
deriving Repr, DecidableEq

/-- `Document.Exists` (`documents_crud_resource.go`): `true` on 200,
`false` on 404, an error on a transport failure or any other status. -/
def docExists (r : HTTPOutcome) : Except String Bool :=
  match r with
  | HTTPOutcome.transportError e => Except.error ("failed to check document existence: " ++ e)
  | HTTPOutcome.status n =>
    if n = 200 then Except.ok true
    else if n = 404 then Except.ok false
    else Except.error ("unexpected status when checking document existence: " ++ toString n)

/-- The mutable connection fields of `Client` (`client.go`) that the
reconnect path touches. -/
structure ClientState where
  connected : Bool
  reconnectCount : Int
deriving Repr, DecidableEq

/-- `Client.connect` (`client.go`), viewed from a goroutine that may or may
not already hold `c.mutex`.  The body starts with `c.mutex.Lock()`;
Go's `sync.RWMutex` is not reentrant, so when the calling goroutine already
holds the write lock the call blocks forever, modelled as `none`.
Otherwise `netOk` abstracts the external cluster-info probe and the result
reports whether the connection was established. -/
def connect (lockHeldByCaller : Bool) (netOk : Bool) : Option Bool :=
  if lockHeldByCaller then none else some netOk

/-- The post-failure backoff step of `attemptReconnect`:
`delay = Duration(float64(delay) * backoff)`, capped at the maximum. -/
def nextDelay (cfg : Config) (delay : Int) : Int :=
  let d := ⌊(delay : Rat) * cfg.reconnectBackoff⌋
  if d > cfg.maxReconnectDelay then cfg.maxReconnectDelay else d

/-- The `for attempts < c.config.MaxReconnectAttempts` loop of
`attemptReconnect`, with `remaining` the attempts left.  Each iteration
sleeps, then calls `c.connect()` — with the write lock still held by this
goroutine, because `attemptReconnect` acquired it and releases it only on
return.  `some true` = reconnected, `some false` = budget exhausted,
`none` = the iteration never returns. -/
def reconnectLoop (cfg : Config) (netOk : Nat → Bool) :
    (remaining : Nat) → (attempt : Nat) → (delay : Int) → Option Bool
  | 0, _, _ => some false
  | Nat.succ rem, attempt, delay =>
    match connect true (netOk attempt) with
    | none => none
    | some true => some true
    | some false => reconnectLoop cfg netOk rem (attempt + 1) (nextDelay cfg delay)

/-- `Client.attemptReconnect` (`client.go`): takes the write lock, returns
at once when already connected, otherwise runs the bounded reconnect loop;
a successful attempt increments the reconnect count.  `none` means the
call never returns. -/
def attemptReconnect (st : ClientState) (cfg : Config) (netOk : Nat → Bool) :
    Option ClientState :=
  if st.connected then some st
  else
    match reconnectLoop cfg netOk cfg.maxReconnectAttempts.toNat 1 cfg.reconnectDelay with
    | none => none
    | some true => some { connected := true, reconnectCount := st.reconnectCount + 1 }
    | some false => some st

/-- The iterator fields shared by `SearchIterator`
(`documents_search_iterator.go`) and `TypedSearchIterator[T]`
(`search_result.go`): the batch is kept abstractly as its list of hits. -/
structure ScrollIter where
  scrollID : String
  currentHits : List Obj
  currentIndex : Int
  done : Bool
  hasErr : Bool
  processedHits : Int
deriving Repr

/-- `SearchIterator.clearScroll` / the body of both `Close` methods: when a
scroll id is held, issue one clear-scroll request; on success the id is
cleared, on failure it is kept (and a warning logged).  Returns the new
state and the number of clear-scroll requests issued. -/
def clearScrollReq (clearOk : Bool) (st : ScrollIter) : ScrollIter × Nat :=
  if st.scrollID = "" then (st, 0)
  else if clearOk then ({ st with scrollID := "" }, 1) else (st, 1)

/-- `TypedSearchIterator[T].Next` (`search_result.go`).  `fetch` bundles
`SearchScroll.Continue` plus the typed conversion of the batch: it returns
the response's new scroll id and hits, or an error (which becomes the
sticky iterator error).  The result triple is (returned boolean, new
state, number of clear-scroll requests issued during the call). -/
def typedNext (fetch : String → Except String (String × List Obj)) (st : ScrollIter) :
    Bool × ScrollIter × Nat :=
  if st.hasErr ∨ st.done then (false, st, 0)
  else if st.currentIndex < (st.currentHits.length : Int) - 1 then
    (true, { st with currentIndex := st.currentIndex + 1
                   , processedHits := st.processedHits + 1 }, 0)
  else if st.scrollID = "" then (false, { st with done := true }, 0)
  else
    match fetch st.scrollID with
    | Except.error _ => (false, { st with hasErr := true }, 0)
    | Except.ok (sid, hits) =>
      let st := { st with scrollID := sid, currentHits := hits, currentIndex := -1 }
      if hits.length = 0 then (false, { st with done := true }, 0)
      else (true, { st with currentIndex := 0, processedHits := st.processedHits + 1 }, 0)

/-- `SearchIterator.Next` (`documents_search_iterator.go`): identical to
`typedNext` except that the terminal empty-batch transition first calls
`si.clearScroll(ctx)`. -/
def searchIterNext (fetch : String → Except String (String × List Obj)) (clearOk : Bool)
    (st : ScrollIter) : Bool × ScrollIter × Nat :=
  if st.hasErr ∨ st.done then (false, st, 0)
  else if st.currentIndex < (st.currentHits.length : Int) - 1 then
    (true, { st with currentIndex := st.currentIndex + 1
                   , processedHits := st.processedHits + 1 }, 0)
  else if st.scrollID = "" then (false, { st with done := true }, 0)
  else
    match fetch st.scrollID with
    | Except.error _ => (false, { st with hasErr := true }, 0)
    | Except.ok (sid, hits) =>
      let st := { st with scrollID := sid, currentHits := hits, currentIndex := -1 }
      if hits.length = 0 then
        let cleared := clearScrollReq clearOk { st with done := true }
        (false, cleared.1, cleared.2)
      else (true, { st with currentIndex := 0, processedHits := st.processedHits + 1 }, 0)

/-- `TypedSearchIterator[T].Close` / `SearchIterator.Close`: clear the
scroll context when an id is held; a no-op otherwise. -/
def iterClose (clearOk : Bool) (st : ScrollIter) : ScrollIter × Nat :=
  clearScrollReq clearOk st

/-- `isValidLogLevel` (`env.go`). -/
def isValidLogLevel (level : String) : Bool :=
  ["debug", "info", "warn", "error"].contains level

/-- `isValidLogFormat` (`env.go`). -/
def isValidLogFormat (format : String) : Bool :=
  ["json", "text"].contains format

/-- `isValidIDMode` (`env.go`). -/
def isValidIDMode (mode : String) : Bool :=
  ["elastic", "ulid", "custom"].contains mode

/-- `strings.Contains(host, ":")`. -/
def hasPort (host : String) : Bool := host.contains ':'

/-- The five soft-normalization mutations in the middle of
`validateConfig` (`env.go`), applied in source order. -/
def normalizeReconnect (config : Config) : Config :=
  let config :=
    if config.reconnectDelay ≤ 0 then { config with reconnectDelay := 5 * 1000000000 }
    else config
  let config :=
    if config.maxReconnectDelay ≤ 0 then { config with maxReconnectDelay := 60 * 1000000000 }
    else config
  let config :=
    if config.reconnectBackoff ≤ 1 then { config with reconnectBackoff := 2 } else config
  let config :=
    if config.maxReconnectAttempts < 0 then { config with maxReconnectAttempts := 10 }
    else config
  let config :=
    if config.healthCheckInterval ≤ 0 then { config with healthCheckInterval := 30 * 1000000000 }
    else config
  config

/-- `validateConfig` (`env.go`): the rejection checks in source order,
followed by the soft normalizations, then the enum checks.  The returned
config carries the normalizations applied by the source's in-place
mutations. -/
def validateConfig (config : Config) : Except String Config :=
  if config.cloudID = "" ∧ config.hosts = [] then
    Except.error "ELASTICSEARCH_HOSTS must be set when not using ELASTICSEARCH_CLOUD_ID"
  else if config.cloudID = "" ∧ ¬(config.hosts.all hasPort) then
    Except.error "host must include a port"
  else if config.connectTimeout ≤ 0 then
    Except.error "connect timeout must be positive"
  else if config.requestTimeout ≤ 0 then
    Except.error "request timeout must be positive"
  else if config.maxRetries < 0 then
    Except.error "max retries cannot be negative"
  else
    let config := normalizeReconnect config
    if ¬ isValidLogLevel config.logLevel then
      Except.error ("invalid log level: " ++ config.logLevel)
    else if ¬ isValidLogFormat config.logFormat then
      Except.error ("invalid log format: " ++ config.logFormat)
    else if ¬ isValidIDMode config.idMode then
      Except.error ("invalid ID mode: " ++ config.idMode)
    else Except.ok config

/-- The per-chunk loop of `parseRetryOnStatus` (`env.go`) over the
comma-separated chunks: trim, skip empties, parse, range-check. -/
def parseStatusCodes : List String → Except String (List Int)
  | [] => Except.ok []
  | codeStr :: rest =>
    let codeStr := codeStr.trim
    if codeStr = "" then parseStatusCodes rest
    else
      match codeStr.toInt? with
      | none => Except.error ("invalid status code " ++ codeStr)
      | some code =>
        if code < 100 ∨ code > 599 then
          Except.error ("invalid HTTP status code: " ++ toString code)
        else
          match parseStatusCodes rest with
          | Except.ok codes => Except.ok (code :: codes)
          | Except.error e => Except.error e

/-- `parseRetryOnStatus` (`env.go`): `retryEnv` is the looked-up value of
the RETRY_ON_STATUS environment variable (`none` when unset). -/
def parseRetryOnStatus (retryEnv : Option String) : Except String (List Int) :=
  match retryEnv with
  | none => Except.ok [502, 503, 504, 429]
  | some s =>
    if s = "" then Except.ok [502, 503, 504, 429]
    else parseStatusCodes (s.splitOn ",")

/-- `loadConfigWithPrefix` (`env.go`): `bound` is the config produced by
the external environment binder (`env.Bind` applying struct-tag defaults);
the retry list is then parsed and the result validated. -/
def loadConfigWithPrefix (bound : Config) (retryEnv : Option String) : Except String Config :=
  match parseRetryOnStatus retryEnv with
  | Except.error e => Except.error ("failed to parse retry status codes: " ++ e)
  | Except.ok codes =>
    match validateConfig { bound with retryOnStatus := codes } with
    | Except.error e => Except.error ("invalid configuration: " ++ e)
    | Except.ok config => Except.ok config

/-- The functional options of `NewClient` (`client.go`) that configure the
client, as a closed datatype. -/
inductive ClientOption where
  | withConfig (c : Config)
  | withHosts (hosts : List String)
  | withCloudID (cloudID : String)
  | fromEnv
deriving Repr

/-- The `clientOptions` accumulator of `NewClient`. -/
structure ClientOptions where
  config : Option Config
deriving Repr

/-- The base config an option constructor builds when none exists yet:
`loadConfigWithPrefix("")`, falling back to `&Config{}` on error.
`env` is the (external) result of that load. -/
def optionBaseConfig (env : Except String Config) (opts : ClientOptions) : Config :=
  match opts.config with
  | some c => c
  | none =>
    match env with
    | Except.ok c => c
    | Except.error _ => emptyConfig

/-- One functional option applied to the accumulator, mirroring the
closures in `client.go`. -/
def applyClientOption (env : Except String Config) (opts : ClientOptions) (o : ClientOption) :
    ClientOptions :=
  match o with
  | ClientOption.withConfig c => { opts with config := some c }
  | ClientOption.withHosts hosts =>
    let base := optionBaseConfig env opts
    { opts with config := some (if hosts ≠ [] then { base with hosts := hosts } else base) }
  | ClientOption.withCloudID cloudID =>
    let base := optionBaseConfig env opts
    { opts with config := some { base with cloudID := cloudID } }
  | ClientOption.fromEnv =>
    { opts with config := some (match env with
        | Except.ok c => c
        | Except.error _ => emptyConfig) }

/-- `NewClient` (`client.go`) up to the point where it connects: apply the
options; when they produced a config, use it as-is (no validation); when
none did, load from the environment (which validates internally), apply
the options a second time, and use the resulting config.  The result is
the config the client connects with, or the construction error. -/
def newClient (env : Except String Config) (options : List ClientOption) :
    Except String Config :=
  let opts := options.foldl (applyClientOption env) { config := none }
  match opts.config with
  | some config => Except.ok config
  | none =>
    match env with
    | Except.error e => Except.error e
    | Except.ok config =>
      let opts2 := options.foldl (applyClientOption env) { config := some config }
      match opts2.config with
      | some c => Except.ok c
      | none => Except.ok config

end Elastic


/-! ## Helper lemmas about the map model -/

theorem mlookup_mset_self (m : Obj) (k : String) (v : GoVal) :
    mlookup (mset m k v) k = some v := by
  induction m with
  | nil => simp [mset, mlookup]
  | cons p rest ih =>
    obtain ⟨k', v'⟩ := p
    by_cases h : k' = k
    · simp [mset, mlookup, h]
    · simp [mset, mlookup, h, ih]

theorem mlookup_mset_ne (m : Obj) (k k' : String) (v : GoVal) (h : k' ≠ k) :
    mlookup (mset m k v) k' = mlookup m k' := by
  have hk : ¬ (k = k') := fun hh => h hh.symm
  induction m with
  | nil => simp [mset, mlookup, hk]
  | cons p rest ih =>
    obtain ⟨k0, v0⟩ := p
    by_cases h0 : k0 = k
    · simp [mset, mlookup, h0, hk]
    · by_cases h1 : k0 = k'
      · simp [mset, mlookup, h0, h1, h]
      · simp [mset, mlookup, h0, h1, ih]

namespace Elastic

/-! ## Claim C4: the document enhancer -/

/-- Claim C4: for every input document, the enhanced mapping has
`updated_at` set to the current time unconditionally, `created_at` equal
to the caller's value when supplied and to the current time otherwise,
preserves a caller-supplied `_id` under every id-mode, and contains a
generated `_id` exactly when the id-mode is ULID and the caller supplied
none (ELASTIC and CUSTOM never inject `_id`). -/
theorem claim_C4 (idMode : IDMode) (gen : String) (now : GoVal) (doc : Obj) :
    mlookup (enhanceDocument idMode gen now (GoVal.obj doc)) "updated_at" = some now ∧
    mlookup (enhanceDocument idMode gen now (GoVal.obj doc)) "created_at" =
      some ((mlookup doc "created_at").getD now) ∧
    (∀ v, mlookup doc "_id" = some v →
      mlookup (enhanceDocument idMode gen now (GoVal.obj doc)) "_id" = some v) ∧
    (mlookup doc "_id" = none →
      mlookup (enhanceDocument idMode gen now (GoVal.obj doc)) "_id" =
        if idMode = IDMode.ulid then some (GoVal.str gen) else none) := by
  show mlookup (enhanceDocMap idMode gen now doc) "updated_at" = some now ∧ _
  unfold enhanceDocMap
  cases hid : mlookup doc "_id" with
  | some v =>
    cases hca : mlookup doc "created_at" with
    | some c =>
      cases idMode <;>
        simp [hid, hca, mlookup_mset_self, mlookup_mset_ne, enhanceDocument, enhanceDocMap]
    | none =>
      cases idMode <;>
        simp [hid, hca, mlookup_mset_self, mlookup_mset_ne, enhanceDocument, enhanceDocMap]
  | none =>
    cases hca : mlookup doc "created_at" with
    | some c =>
      cases idMode <;>
        simp [hid, hca, mlookup_mset_self, mlookup_mset_ne, enhanceDocument, enhanceDocMap]
    | none =>
      cases idMode <;>
        simp [hid, hca, mlookup_mset_self, mlookup_mset_ne, enhanceDocument, enhanceDocMap]

/-- Witness for claim C4: in ULID mode, enhancing `{"name": "x"}` injects
the generated id. -/
theorem claim_C4_witness :
    mlookup (enhanceDocument IDMode.ulid "01HULID" (GoVal.str "t0")
      (GoVal.obj [("name", GoVal.str "x")])) "_id" = some (GoVal.str "01HULID") := by
  have h := claim_C4 IDMode.ulid "01HULID" (GoVal.str "t0") [("name", GoVal.str "x")]
  simpa using h.2.2.2 rfl

/-! ## Claim C9: Document.Exists -/

/-- Claim C9: `Document.Exists` answers `true` exactly on HTTP 200 and
`false` exactly on HTTP 404; every other status, and every transport
failure, yields an error and no boolean answer. -/
theorem claim_C9 :
    (∀ r, docExists r = Except.ok true ↔ r = HTTPOutcome.status 200) ∧
    (∀ r, docExists r = Except.ok false ↔ r = HTTPOutcome.status 404) ∧
    (∀ n, n ≠ 200 → n ≠ 404 → ∃ e, docExists (HTTPOutcome.status n) = Except.error e) ∧
    (∀ s, ∃ e, docExists (HTTPOutcome.transportError s) = Except.error e) := by
  refine ⟨fun r => ?_, fun r => ?_, fun n h200 h404 => ?_, fun s => ⟨_, rfl⟩⟩
  · cases r with
    | transportError e => simp [docExists]
    | status n =>
      by_cases h : n = 200
      · simp [docExists, h]
      · by_cases h4 : n = 404 <;> simp [docExists, h, h4]
  · cases r with
    | transportError e => simp [docExists]
    | status n =>
      by_cases h : n = 200
      · simp [docExists, h]
      · by_cases h4 : n = 404 <;> simp [docExists, h, h4]
  · exact ⟨"unexpected status when checking document existence: " ++ toString n,
      by simp [docExists, h200, h404]⟩

/-- Witness for claim C9: status 500 yields an error, not a boolean. -/
theorem claim_C9_witness :
    ∃ e, docExists (HTTPOutcome.status 500) = Except.error e :=
  claim_C9.2.2.1 500 (by decide) (by decide)

end Elastic

namespace Elastic

/-! ## Claim C1: scroll context release at the terminal transition -/

/-- Claim C1 (refuted on the code): the public scroll API returns a
`TypedSearchIterator`, and on the terminal transition — the batch is
exhausted, the fetched next batch is empty — `TypedSearchIterator.Next`
only sets `done` and returns `false`: it issues zero clear-scroll
requests and leaves the scroll id live (here `"s2"`), whereas the claim
requires the terminal transition to issue exactly one.  At the very same
input the untyped `SearchIterator.Next` does issue exactly one clear-scroll
and blanks the id. -/
theorem claim_C1 :
    typedNext (fun _ => Except.ok ("s2", []))
      { scrollID := "s1", currentHits := [[("n", GoVal.int 1)]], currentIndex := 0
      , done := false, hasErr := false, processedHits := 1 } =
      (false,
       { scrollID := "s2", currentHits := [], currentIndex := -1
       , done := true, hasErr := false, processedHits := 1 }, 0) ∧
    searchIterNext (fun _ => Except.ok ("s2", [])) true
      { scrollID := "s1", currentHits := [[("n", GoVal.int 1)]], currentIndex := 0
      , done := false, hasErr := false, processedHits := 1 } =
      (false,
       { scrollID := "", currentHits := [], currentIndex := -1
       , done := true, hasErr := false, processedHits := 1 }, 1) :=
  ⟨rfl, rfl⟩

/-! ## Claim C2: termination of attemptReconnect -/

/-- Claim C2 (refuted on the code): `attemptReconnect` acquires the write
lock and then calls `connect`, which tries to acquire the same
non-reentrant write lock, so with the default configuration a disconnected
client never returns from `attemptReconnect` (the loop deadlocks inside
its first attempt); only the already-connected early return terminates. -/
theorem claim_C2 :
    attemptReconnect { connected := false, reconnectCount := 0 } defaultConfig
      (fun _ => true) = none ∧
    attemptReconnect { connected := true, reconnectCount := 0 } defaultConfig
      (fun _ => true) = some { connected := true, reconnectCount := 0 } :=
  ⟨rfl, rfl⟩

/-! ## Claim C10: BulkIndexer.Update drops the partial document -/

/-- Claim C10: an operation added by `BulkIndexer.Update(id, doc)` stores
the partial document in the `Document` field, which the update branch of
the bulk serializer never reads; its body line on the wire is the empty
JSON object, and the payload is unchanged when the partial document is
replaced by any other value. -/
theorem claim_C10 (idMode : IDMode) (gen : String) (now : GoVal)
    (indexName id : String) (doc doc' : GoVal) :
    (bulkIndexerUpdate indexName id doc).document = some doc ∧
    bulkExecuteBody idMode gen now [bulkIndexerUpdate indexName id doc] =
      Except.ok [bulkActionLine (bulkIndexerUpdate indexName id doc), GoVal.obj []] ∧
    bulkExecuteBody idMode gen now [bulkIndexerUpdate indexName id doc] =
      bulkExecuteBody idMode gen now [bulkIndexerUpdate indexName id doc'] :=
  ⟨rfl, rfl, rfl⟩

end Elastic

namespace Query

/-! ## Helper lemmas for the query-builder contract -/

theorem Must_nonbool (b : Builder) (qs : List Builder) (h : isBool b = false) :
    Must b qs = Except.error
      "query: cannot call Must() on a non-bool query builder (e.g., a Term, Match, or Range query)" := by
  unfold Must
  cases hm : mlookup b "bool" with
  | none => rfl
  | some v => cases v <;> simp_all [isBool, hm]

theorem Filter_nonbool (b : Builder) (qs : List Builder) (h : isBool b = false) :
    Filter b qs = Except.error
      "query: cannot call Filter() on a non-bool query builder (e.g., a Term, Match, or Range query)" := by
  unfold Filter
  cases hm : mlookup b "bool" with
  | none => rfl
  | some v => cases v <;> simp_all [isBool, hm]

theorem Should_nonbool (b : Builder) (qs : List Builder) (h : isBool b = false) :
    Should b qs = Except.error
      "query: cannot call Should() on a non-bool query builder (e.g., a Term, Match, or Range query)" := by
  unfold Should
  cases hm : mlookup b "bool" with
  | none => rfl
  | some v => cases v <;> simp_all [isBool, hm]

theorem MustNot_nonbool (b : Builder) (qs : List Builder) (h : isBool b = false) :
    MustNot b qs = Except.error
      "query: cannot call MustNot() on a non-bool query builder (e.g., a Term, Match, or Range query)" := by
  unfold MustNot
  cases hm : mlookup b "bool" with
  | none => rfl
  | some v => cases v <;> simp_all [isBool, hm]

theorem MinimumShouldMatch_nonbool (b : Builder) (n : Int) (h : isBool b = false) :
    MinimumShouldMatch b n = Except.error
      "query: cannot call MinimumShouldMatch() on a non-bool query builder (e.g., a Term, Match, or Range query)" := by
  unfold MinimumShouldMatch
  cases hm : mlookup b "bool" with
  | none => rfl
  | some v => cases v <;> simp_all [isBool, hm]

end Query

namespace Elastic

/-! ## Claim C6: the query-builder contract -/

/-- Claim C6: every clause method (`Must`, `Filter`, `Should`, `MustNot`,
`MinimumShouldMatch`) called on a non-BOOL builder fails loudly with the
panic message naming the offending method; every leaf constructor builds
a non-BOOL builder; and on the BOOL builder returned by `New` the chained
calls succeed and append exactly the given children to the corresponding
clause lists. -/
theorem claim_C6 :
    (∀ b qs, Query.isBool b = false → Query.Must b qs = Except.error
      "query: cannot call Must() on a non-bool query builder (e.g., a Term, Match, or Range query)") ∧
    (∀ b qs, Query.isBool b = false → Query.Filter b qs = Except.error
      "query: cannot call Filter() on a non-bool query builder (e.g., a Term, Match, or Range query)") ∧
    (∀ b qs, Query.isBool b = false → Query.Should b qs = Except.error
      "query: cannot call Should() on a non-bool query builder (e.g., a Term, Match, or Range query)") ∧
    (∀ b qs, Query.isBool b = false → Query.MustNot b qs = Except.error
      "query: cannot call MustNot() on a non-bool query builder (e.g., a Term, Match, or Range query)") ∧
    (∀ b n, Query.isBool b = false → Query.MinimumShouldMatch b n = Except.error
      "query: cannot call MinimumShouldMatch() on a non-bool query builder (e.g., a Term, Match, or Range query)") ∧
    (∀ f v, Query.isBool (Query.Term f v) = false) ∧
    (∀ f vs, Query.isBool (Query.Terms f vs) = false) ∧
    (∀ f t, Query.isBool (Query.Match f t) = false) ∧
    (∀ f t, Query.isBool (Query.MatchPhrase f t) = false) ∧
    (∀ t fs, Query.isBool (Query.MultiMatch t fs) = false) ∧
    Query.isBool Query.MatchAll = false ∧
    Query.isBool Query.MatchNone = false ∧
    (∀ f, Query.isBool (Query.Exists f) = false) ∧
    (∀ ids, Query.isBool (Query.IDs ids) = false) ∧
    (∀ f p, Query.isBool (Query.Wildcard f p) = false) ∧
    (∀ f p, Query.isBool (Query.Regexp f p) = false) ∧
    (∀ f v, Query.isBool (Query.Fuzzy f v) = false) ∧
    (∀ r, Query.isBool (Query.RangeBuilder.Build r) = false) ∧
    Query.isBool Query.New = true ∧
    (∀ mqs fqs sqs nqs n, ∃ b bq,
      (do
        let b1 ← Query.Must Query.New mqs
        let b2 ← Query.Filter b1 fqs
        let b3 ← Query.Should b2 sqs
        let b4 ← Query.MustNot b3 nqs
        Query.MinimumShouldMatch b4 n) = Except.ok b ∧
      mlookup b "bool" = some (GoVal.obj bq) ∧
      Query.clauseOf bq "must" = mqs.map (fun q => GoVal.obj (Query.Build q)) ∧
      Query.clauseOf bq "filter" = fqs.map (fun q => GoVal.obj (Query.Build q)) ∧
      Query.clauseOf bq "should" = sqs.map (fun q => GoVal.obj (Query.Build q)) ∧
      Query.clauseOf bq "must_not" = nqs.map (fun q => GoVal.obj (Query.Build q)) ∧
      mlookup bq "minimum_should_match" = some (GoVal.int n)) := by
  refine ⟨Query.Must_nonbool, Query.Filter_nonbool, Query.Should_nonbool,
    Query.MustNot_nonbool, Query.MinimumShouldMatch_nonbool,
    fun f v => rfl, fun f vs => rfl, fun f t => rfl, fun f t => rfl, fun t fs => rfl,
    rfl, rfl, fun f => rfl, fun ids => rfl, fun f p => rfl, fun f p => rfl, fun f v => rfl,
    fun r => rfl, rfl, fun mqs fqs sqs nqs n => ?_⟩
  refine ⟨_, _, rfl, rfl, ?_, ?_, ?_, ?_, rfl⟩ <;>
    simp [Query.New, Query.Must, Query.Filter, Query.Should, Query.MustNot,
      Query.MinimumShouldMatch, Query.clauseOf, Query.Build, mset, mlookup]

/-- Witness for claim C6: `Term("s","a").Must(Match("t","x"))` fails with
the message carrying `Must()`. -/
theorem claim_C6_witness :
    Query.Must (Query.Term "s" (GoVal.str "a")) [Query.Match "t" "x"] = Except.error
      "query: cannot call Must() on a non-bool query builder (e.g., a Term, Match, or Range query)" :=
  claim_C6.1 (Query.Term "s" (GoVal.str "a")) [Query.Match "t" "x"] rfl

end Elastic

namespace Elastic

/-! ## Helper lemmas for the typed search-result conversion -/

theorem convertHits_ok_spec {T : Type} (decode : Obj → Except String T) (typeName : String)
    (dflt : T) :
    ∀ (hits : List Hit) (out : List (TypedHit T)),
      convertHits decode typeName dflt hits = Except.ok out →
      out.length = hits.length ∧
      ∀ i (hi : i < hits.length) (ho : i < out.length),
        (match hits[i].source with
         | some m => decode m = Except.ok out[i].source
         | none => out[i].source = dflt) := by
  intro hits
  induction hits with
  | nil =>
    intro out h
    simp only [convertHits] at h
    injection h with h
    subst h
    exact ⟨rfl, fun i hi ho => absurd hi (by simp)⟩
  | cons hit rest ih =>
    intro out h
    unfold convertHits at h
    cases hs : hit.source with
    | none =>
      simp only [hs] at h
      cases hr : convertHits decode typeName dflt rest with
      | error e => simp only [hr] at h; exact absurd h (by simp)
      | ok typedRest =>
        simp only [hr] at h
        injection h with h
        subst h
        obtain ⟨hlen, hspec⟩ := ih typedRest hr
        refine ⟨by simp [hlen], fun i hi ho => ?_⟩
        cases i with
        | zero => simp [hs]
        | succ j =>
          have hj : j < rest.length := by simpa using hi
          have hoj : j < typedRest.length := by simpa using ho
          simpa using hspec j hj hoj
    | some m =>
      simp only [hs] at h
      cases hd : decode m with
      | error e => simp only [hd] at h; exact absurd h (by simp)
      | ok doc =>
        simp only [hd] at h
        cases hr : convertHits decode typeName dflt rest with
        | error e => simp only [hr] at h; exact absurd h (by simp)
        | ok typedRest =>
          simp only [hr] at h
          injection h with h
          subst h
          obtain ⟨hlen, hspec⟩ := ih typedRest hr
          refine ⟨by simp [hlen], fun i hi ho => ?_⟩
          cases i with
          | zero => simpa [hs] using hd
          | succ j =>
            have hj : j < rest.length := by simpa using hi
            have hoj : j < typedRest.length := by simpa using ho
            simpa using hspec j hj hoj

theorem convertHits_error_shape {T : Type} (decode : Obj → Except String T) (typeName : String)
    (dflt : T) :
    ∀ (hits : List Hit) (e : String),
      convertHits decode typeName dflt hits = Except.error e →
      ∃ e2, e = "failed to unmarshal hit source to type " ++ typeName ++ ": " ++ e2 := by
  intro hits
  induction hits with
  | nil => intro e h; exact absurd h (by simp [convertHits])
  | cons hit rest ih =>
    intro e h
    unfold convertHits at h
    cases hs : hit.source with
    | none =>
      simp only [hs] at h
      cases hr : convertHits decode typeName dflt rest with
      | error e0 => simp only [hr] at h; injection h with h; subst h; exact ih e0 hr
      | ok typedRest => simp only [hr] at h; exact absurd h (by simp)
    | some m =>
      simp only [hs] at h
      cases hd : decode m with
      | error e0 => simp only [hd] at h; injection h with h; exact ⟨e0, h.symm⟩
      | ok doc =>
        simp only [hd] at h
        cases hr : convertHits decode typeName dflt rest with
        | error e0 => simp only [hr] at h; injection h with h; subst h; exact ih e0 hr
        | ok typedRest => simp only [hr] at h; exact absurd h (by simp)

theorem convertHits_decode_failure {T : Type} (decode : Obj → Except String T)
    (typeName : String) (dflt : T) :
    ∀ (hits : List Hit) i (hi : i < hits.length) (m : Obj) (e : String),
      hits[i].source = some m → decode m = Except.error e →
      ∃ err, convertHits decode typeName dflt hits = Except.error err := by
  intro hits
  induction hits with
  | nil => intro i hi; exact absurd hi (by simp)
  | cons hit rest ih =>
    intro i hi m e hsrc hdec
    unfold convertHits
    cases i with
    | zero =>
      simp only [List.getElem_cons_zero] at hsrc
      simp only [hsrc, hdec]
      exact ⟨_, rfl⟩
    | succ j =>
      have hj : j < rest.length := by simpa using hi
      simp only [List.getElem_cons_succ] at hsrc
      obtain ⟨err, herr⟩ := ih j hj m e hsrc hdec
      cases hs : hit.source with
      | none => simp only [hs, herr]; exact ⟨err, rfl⟩
      | some m0 =>
        cases hd : decode m0 with
        | error e0 => simp only [hs, hd]; exact ⟨_, rfl⟩
        | ok doc => simp only [hs, hd, herr]; exact ⟨err, rfl⟩

/-! ## Claim C7: typed search-result conversion -/

/-- Claim C7: when `ConvertSearchResponse` succeeds, `Documents()[i]` is
exactly the decode of the i-th hit's source, in hit order (a nil source
keeps the zero value); and when decoding any single hit fails, the whole
conversion fails with an error naming the target type and returns no
result. -/
theorem claim_C7 {T : Type} (decode : Obj → Except String T) (typeName : String) (dflt : T) :
    (∀ (resp : SearchResponse) (res : SearchResult T),
      convertSearchResponse decode typeName dflt resp = Except.ok res →
      res.documents.length = resp.hits.length ∧
      ∀ i (hi : i < resp.hits.length) (hd : i < res.documents.length),
        (match resp.hits[i].source with
         | some m => decode m = Except.ok res.documents[i]
         | none => res.documents[i] = dflt)) ∧
    (∀ (resp : SearchResponse) i (hi : i < resp.hits.length) (m : Obj) (e : String),
      resp.hits[i].source = some m → decode m = Except.error e →
      ∃ e2, convertSearchResponse decode typeName dflt resp =
        Except.error ("failed to unmarshal hit source to type " ++ typeName ++ ": " ++ e2)) := by
  constructor
  · intro resp res h
    unfold convertSearchResponse at h
    cases hc : convertHits decode typeName dflt resp.hits with
    | error e => rw [hc] at h; exact absurd h (by simp)
    | ok typedHits =>
      rw [hc] at h
      injection h with h
      obtain ⟨hlen, hspec⟩ := convertHits_ok_spec decode typeName dflt resp.hits typedHits hc
      have hhits : res.hits = typedHits := by rw [← h]
      refine ⟨by simp [SearchResult.documents, hhits, hlen], fun i hi hd => ?_⟩
      have hdl : i < typedHits.length := by
        simpa [SearchResult.documents, hhits] using hd
      have := hspec i hi hdl
      simpa [SearchResult.documents, hhits] using this
  · intro resp i hi m e hsrc hdec
    obtain ⟨err, herr⟩ := convertHits_decode_failure decode typeName dflt resp.hits i hi m e hsrc hdec
    obtain ⟨e2, he2⟩ := convertHits_error_shape decode typeName dflt resp.hits err herr
    refine ⟨e2, ?_⟩
    unfold convertSearchResponse
    rw [herr, he2]

end Elastic

namespace Elastic

/-- Witness for claim C7: a one-hit response whose source fails to decode
makes the whole conversion fail with the type-naming error. -/
theorem claim_C7_witness :
    ∃ e2, convertSearchResponse
      (fun m => match mlookup m "v" with
        | some (GoVal.int n) => Except.ok n
        | _ => Except.error "not an int") "Int" (0 : Int)
      { took := 1, timedOut := false, scrollID := "", shardsTotal := 1
      , shardsSuccessful := 1, shardsSkipped := 0, shardsFailed := 0
      , totalValue := 1, totalRelation := "eq", maxScore := 0
      , hits := [{ index := "i", typ := "", id := "1", score := 0
                 , source := some [("v", GoVal.str "oops")] }]
      , aggregations := [] } =
      Except.error ("failed to unmarshal hit source to type " ++ "Int" ++ ": " ++ e2) :=
  (claim_C7 (fun m => match mlookup m "v" with
      | some (GoVal.int n) => Except.ok n
      | _ => Except.error "not an int") "Int" (0 : Int)).2
    _ 0 (by simp) [("v", GoVal.str "oops")] "not an int" rfl rfl

/-! ## Helper lemmas for the search options -/

theorem applySOpt_sort_preserves (m : Obj) (sorts : List Obj) (k : String) (hk : k ≠ "sort") :
    mlookup (applySOpt m (SOpt.sortOpt sorts)) k = mlookup m k := by
  simp only [applySOpt]
  split <;> exact mlookup_mset_ne _ _ _ _ hk

theorem applySOpt_source_preserves (m : Obj) (includes : List String) (k : String)
    (hk : k ≠ "_source") :
    mlookup (applySOpt m (SOpt.source includes)) k = mlookup m k := by
  simp only [applySOpt]
  split
  · exact mlookup_mset_ne _ _ _ _ hk
  · exact mlookup_mset_ne _ _ _ _ hk
  · split <;> exact mlookup_mset_ne _ _ _ _ hk
  · split <;> exact mlookup_mset_ne _ _ _ _ hk

theorem applySOpt_size_key (m : Obj) (o : SOpt) :
    mlookup (applySOpt m o) "size" =
      match scalarWrite "size" o with
      | some v => some v
      | none => mlookup m "size" := by
  cases o with
  | size n => exact mlookup_mset_self _ _ _
  | indices xs => exact mlookup_mset_ne _ _ _ _ (by decide)
  | fromOpt n => exact mlookup_mset_ne _ _ _ _ (by decide)
  | aggs a => exact mlookup_mset_ne _ _ _ _ (by decide)
  | timeout s => exact mlookup_mset_ne _ _ _ _ (by decide)
  | sortOpt xs => exact applySOpt_sort_preserves m xs _ (by decide)
  | source includes => exact applySOpt_source_preserves m includes _ (by decide)

theorem applySOpt_from_key (m : Obj) (o : SOpt) :
    mlookup (applySOpt m o) "from" =
      match scalarWrite "from" o with
      | some v => some v
      | none => mlookup m "from" := by
  cases o with
  | fromOpt n => exact mlookup_mset_self _ _ _
  | indices xs => exact mlookup_mset_ne _ _ _ _ (by decide)
  | size n => exact mlookup_mset_ne _ _ _ _ (by decide)
  | aggs a => exact mlookup_mset_ne _ _ _ _ (by decide)
  | timeout s => exact mlookup_mset_ne _ _ _ _ (by decide)
  | sortOpt xs => exact applySOpt_sort_preserves m xs _ (by decide)
  | source includes => exact applySOpt_source_preserves m includes _ (by decide)

theorem applySOpt_timeout_key (m : Obj) (o : SOpt) :
    mlookup (applySOpt m o) "timeout" =
      match scalarWrite "timeout" o with
      | some v => some v
      | none => mlookup m "timeout" := by
  cases o with
  | timeout s => exact mlookup_mset_self _ _ _
  | indices xs => exact mlookup_mset_ne _ _ _ _ (by decide)
  | size n => exact mlookup_mset_ne _ _ _ _ (by decide)
  | fromOpt n => exact mlookup_mset_ne _ _ _ _ (by decide)
  | aggs a => exact mlookup_mset_ne _ _ _ _ (by decide)
  | sortOpt xs => exact applySOpt_sort_preserves m xs _ (by decide)
  | source includes => exact applySOpt_source_preserves m includes _ (by decide)

theorem applySOpt_aggs_key (m : Obj) (o : SOpt) :
    mlookup (applySOpt m o) "aggs" =
      match scalarWrite "aggs" o with
      | some v => some v
      | none => mlookup m "aggs" := by
  cases o with
  | aggs a => exact mlookup_mset_self _ _ _
  | indices xs => exact mlookup_mset_ne _ _ _ _ (by decide)
  | size n => exact mlookup_mset_ne _ _ _ _ (by decide)
  | fromOpt n => exact mlookup_mset_ne _ _ _ _ (by decide)
  | timeout s => exact mlookup_mset_ne _ _ _ _ (by decide)
  | sortOpt xs => exact applySOpt_sort_preserves m xs _ (by decide)
  | source includes => exact applySOpt_source_preserves m includes _ (by decide)

theorem applySOpt_indices_key (m : Obj) (o : SOpt) :
    mlookup (applySOpt m o) "indices" =
      match scalarWrite "indices" o with
      | some v => some v
      | none => mlookup m "indices" := by
  cases o with
  | indices xs => exact mlookup_mset_self _ _ _
  | size n => exact mlookup_mset_ne _ _ _ _ (by decide)
  | fromOpt n => exact mlookup_mset_ne _ _ _ _ (by decide)
  | aggs a => exact mlookup_mset_ne _ _ _ _ (by decide)
  | timeout s => exact mlookup_mset_ne _ _ _ _ (by decide)
  | sortOpt xs => exact applySOpt_sort_preserves m xs _ (by decide)
  | source includes => exact applySOpt_source_preserves m includes _ (by decide)

theorem applySOpt_preserves_sort (m : Obj) (o : SOpt) (h : ∀ xs, o ≠ SOpt.sortOpt xs) :
    mlookup (applySOpt m o) "sort" = mlookup m "sort" := by
  cases o with
  | indices xs => exact mlookup_mset_ne _ _ _ _ (by decide)
  | size n => exact mlookup_mset_ne _ _ _ _ (by decide)
  | fromOpt n => exact mlookup_mset_ne _ _ _ _ (by decide)
  | aggs a => exact mlookup_mset_ne _ _ _ _ (by decide)
  | timeout s => exact mlookup_mset_ne _ _ _ _ (by decide)
  | source includes => exact applySOpt_source_preserves m includes _ (by decide)
  | sortOpt xs => exact absurd rfl (h xs)

theorem applySOpt_preserves_source (m : Obj) (o : SOpt) (h : ∀ xs, o ≠ SOpt.source xs) :
    mlookup (applySOpt m o) "_source" = mlookup m "_source" := by
  cases o with
  | indices xs => exact mlookup_mset_ne _ _ _ _ (by decide)
  | size n => exact mlookup_mset_ne _ _ _ _ (by decide)
  | fromOpt n => exact mlookup_mset_ne _ _ _ _ (by decide)
  | aggs a => exact mlookup_mset_ne _ _ _ _ (by decide)
  | timeout s => exact mlookup_mset_ne _ _ _ _ (by decide)
  | sortOpt xs => exact applySOpt_sort_preserves m xs _ (by decide)
  | source includes => exact absurd rfl (h includes)

theorem foldl_lastScalar (k : String)
    (hw : ∀ (m : Obj) (o : SOpt),
      mlookup (applySOpt m o) k =
        match scalarWrite k o with
        | some v => some v
        | none => mlookup m k) :
    ∀ (opts : List SOpt) (m : Obj),
      mlookup (opts.foldl applySOpt m) k = lastScalar k (mlookup m k) opts := by
  intro opts
  induction opts with
  | nil => intro m; rfl
  | cons o rest ih =>
    intro m
    simp only [List.foldl_cons, lastScalar]
    rw [ih (applySOpt m o), hw m o]

theorem foldl_sortAcc :
    ∀ (opts : List SOpt) (m : Obj) (acc : Option (List Obj)),
      mlookup m "sort" = Option.map GoVal.arrObj acc →
      mlookup (opts.foldl applySOpt m) "sort" = Option.map GoVal.arrObj (sortAcc acc opts) := by
  intro opts
  induction opts with
  | nil => intro m acc h; simpa [sortAcc] using h
  | cons o rest ih =>
    intro m acc h
    cases o with
    | sortOpt xs =>
      simp only [List.foldl_cons, sortAcc]
      apply ih
      cases acc with
      | none => simp [applySOpt, h, mlookup_mset_self]
      | some ys => simp [applySOpt, h, mlookup_mset_self]
    | indices xs =>
      exact ih _ acc ((applySOpt_preserves_sort m _ (fun _ hh => SOpt.noConfusion hh)).trans h)
    | size n =>
      exact ih _ acc ((applySOpt_preserves_sort m _ (fun _ hh => SOpt.noConfusion hh)).trans h)
    | fromOpt n =>
      exact ih _ acc ((applySOpt_preserves_sort m _ (fun _ hh => SOpt.noConfusion hh)).trans h)
    | source includes =>
      exact ih _ acc ((applySOpt_preserves_sort m _ (fun _ hh => SOpt.noConfusion hh)).trans h)
    | aggs a =>
      exact ih _ acc ((applySOpt_preserves_sort m _ (fun _ hh => SOpt.noConfusion hh)).trans h)
    | timeout s =>
      exact ih _ acc ((applySOpt_preserves_sort m _ (fun _ hh => SOpt.noConfusion hh)).trans h)

theorem sourceState_of_eq (m m2 : Obj) (acc : Option (List String))
    (heq : mlookup m2 "_source" = mlookup m "_source") (h : sourceState m acc) :
    sourceState m2 acc := by
  cases acc with
  | none => simp only [sourceState] at h ⊢; rw [heq]; exact h
  | some xs =>
    simp only [sourceState] at h ⊢
    cases h with
    | inl ha => exact Or.inl (heq.trans ha)
    | inr hb => obtain ⟨x, hx, hlk⟩ := hb; exact Or.inr ⟨x, hx, heq.trans hlk⟩

theorem foldl_sourceAcc :
    ∀ (opts : List SOpt) (m : Obj) (acc : Option (List String)),
      sourceState m acc →
      sourceState (opts.foldl applySOpt m) (sourceAcc acc opts) := by
  intro opts
  induction opts with
  | nil => intro m acc h; simpa [sourceAcc] using h
  | cons o rest ih =>
    intro m acc h
    cases o with
    | source includes =>
      simp only [List.foldl_cons, sourceAcc]
      apply ih
      cases acc with
      | none =>
        simp only [sourceState] at h
        cases includes with
        | nil => simp [applySOpt, h, sourceState, mlookup_mset_self]
        | cons i0 restInc =>
          cases restInc with
          | nil =>
            simp only [applySOpt, h]
            exact Or.inr ⟨i0, by simp, mlookup_mset_self _ _ _⟩
          | cons i1 restInc2 => simp [applySOpt, h, sourceState, mlookup_mset_self]
      | some xs =>
        simp only [sourceState] at h
        cases h with
        | inl harr => simp [applySOpt, harr, sourceState, mlookup_mset_self]
        | inr hstr =>
          obtain ⟨x, hxs, hlk⟩ := hstr
          subst hxs
          simp [applySOpt, hlk, sourceState, mlookup_mset_self]
    | indices xs =>
      exact ih _ acc (sourceState_of_eq m _ acc
        (applySOpt_preserves_source m _ (fun _ hh => SOpt.noConfusion hh)) h)
    | size n =>
      exact ih _ acc (sourceState_of_eq m _ acc
        (applySOpt_preserves_source m _ (fun _ hh => SOpt.noConfusion hh)) h)
    | fromOpt n =>
      exact ih _ acc (sourceState_of_eq m _ acc
        (applySOpt_preserves_source m _ (fun _ hh => SOpt.noConfusion hh)) h)
    | sortOpt xs =>
      exact ih _ acc (sourceState_of_eq m _ acc
        (applySOpt_preserves_source m _ (fun _ hh => SOpt.noConfusion hh)) h)
    | aggs a =>
      exact ih _ acc (sourceState_of_eq m _ acc
        (applySOpt_preserves_source m _ (fun _ hh => SOpt.noConfusion hh)) h)
    | timeout s =>
      exact ih _ acc (sourceState_of_eq m _ acc
        (applySOpt_preserves_source m _ (fun _ hh => SOpt.noConfusion hh)) h)

/-! ## Claim C8: search-option composition -/

/-- Claim C8: over any option sequence applied to the request mapping
seeded with the query, the scalar options (`WithSize`, `WithFrom`,
`WithTimeout`, `WithAggregations`, `WithIndices`) leave the value of the
last same-kind occurrence (later calls overwrite earlier ones), while the
list options (`WithSort`, `WithSource`) accumulate the concatenation of
all their arguments in application order. -/
theorem claim_C8 (q : Obj) (opts : List SOpt) :
    mlookup (buildSearchQuery q opts) "size" = lastScalar "size" none opts ∧
    mlookup (buildSearchQuery q opts) "from" = lastScalar "from" none opts ∧
    mlookup (buildSearchQuery q opts) "timeout" = lastScalar "timeout" none opts ∧
    mlookup (buildSearchQuery q opts) "aggs" = lastScalar "aggs" none opts ∧
    mlookup (buildSearchQuery q opts) "indices" = lastScalar "indices" none opts ∧
    mlookup (buildSearchQuery q opts) "sort" = Option.map GoVal.arrObj (sortAcc none opts) ∧
    sourceState (buildSearchQuery q opts) (sourceAcc none opts) := by
  refine ⟨?_, ?_, ?_, ?_, ?_, ?_, ?_⟩
  · rw [buildSearchQuery, foldl_lastScalar "size" applySOpt_size_key,
      show mlookup [("query", GoVal.obj q)] "size" = none from rfl]
  · rw [buildSearchQuery, foldl_lastScalar "from" applySOpt_from_key,
      show mlookup [("query", GoVal.obj q)] "from" = none from rfl]
  · rw [buildSearchQuery, foldl_lastScalar "timeout" applySOpt_timeout_key,
      show mlookup [("query", GoVal.obj q)] "timeout" = none from rfl]
  · rw [buildSearchQuery, foldl_lastScalar "aggs" applySOpt_aggs_key,
      show mlookup [("query", GoVal.obj q)] "aggs" = none from rfl]
  · rw [buildSearchQuery, foldl_lastScalar "indices" applySOpt_indices_key,
      show mlookup [("query", GoVal.obj q)] "indices" = none from rfl]
  · rw [buildSearchQuery]
    exact foldl_sortAcc opts _ none (by simp [mlookup])
  · rw [buildSearchQuery]
    exact foldl_sourceAcc opts _ none (by simp [sourceState, mlookup])

end Elastic

namespace Elastic

/-! ## Helper lemmas for the bulk serializer -/

theorem bulkBuildBody_foldl (idMode : IDMode) (gen : String) (now : GoVal) :
    ∀ (ops : List BulkOperation) (acc : List GoVal),
      ops.foldl (fun acc op => acc ++ (bulkActionLine op :: bulkBodyLines idMode gen now op)) acc =
        acc ++ ops.flatMap (fun op => bulkActionLine op :: bulkBodyLines idMode gen now op) := by
  intro ops
  induction ops with
  | nil => intro acc; simp
  | cons op rest ih => intro acc; simp [ih, List.flatMap_cons]

theorem bulkActionLine_shape (op : BulkOperation) :
    bulkActionLine op =
      GoVal.obj [(op.action, GoVal.obj (("_index", GoVal.str op.index) ::
        (if op.id ≠ "" then [("_id", GoVal.str op.id)] else [])))] := by
  have hx : ("_index" : String) ≠ "_id" := by decide
  by_cases hid : op.id = "" <;> simp [bulkActionLine, mset, hid, hx]

theorem bulkBodyLines_shape (idMode : IDMode) (gen : String) (now : GoVal)
    (op : BulkOperation)
    (hdoc : (op.action = "index" ∨ op.action = "create") → op.document.isSome) :
    bulkBodyLines idMode gen now op =
      (if op.action = "index" ∨ op.action = "create" then
        [GoVal.obj (enhanceDocument idMode gen now (op.document.getD GoVal.gnull))]
      else if op.action = "update" then
        [GoVal.obj ((match op.upsertDoc with
          | some u => [("doc", GoVal.obj u), ("doc_as_upsert", GoVal.gbool true)]
          | none => []) ++
          (match op.script with
          | some sc => [("script", GoVal.obj sc)]
          | none => []))]
      else []) := by
  have hd1 : ("doc" : String) ≠ "doc_as_upsert" := by decide
  have hd2 : ("doc" : String) ≠ "script" := by decide
  have hd3 : ("doc_as_upsert" : String) ≠ "script" := by decide
  by_cases h1 : op.action = "index" ∨ op.action = "create"
  · obtain ⟨d, hd⟩ := Option.isSome_iff_exists.mp (hdoc h1)
    simp [bulkBodyLines, h1, hd]
  · by_cases h2 : op.action = "update"
    · cases hu : op.upsertDoc with
      | none =>
        cases hs : op.script with
        | none => simp [bulkBodyLines, h1, h2, hu, hs]
        | some sc => simp [bulkBodyLines, h1, h2, hu, hs, mset]
      | some u =>
        cases hs : op.script with
        | none => simp [bulkBodyLines, h1, h2, hu, hs, mset, hd1]
        | some sc => simp [bulkBodyLines, h1, h2, hu, hs, mset, hd1, hd2, hd3]
    · simp [bulkBodyLines, h1, h2]

theorem bulkLines_flatMap_spec (idMode : IDMode) (gen : String) (now : GoVal) :
    ∀ (ops : List BulkOperation),
      (∀ op ∈ ops, (op.action = "index" ∨ op.action = "create") → op.document.isSome) →
      ops.flatMap (fun op => bulkActionLine op :: bulkBodyLines idMode gen now op) =
        ops.flatMap (fun op =>
          GoVal.obj [(op.action, GoVal.obj (("_index", GoVal.str op.index) ::
            (if op.id ≠ "" then [("_id", GoVal.str op.id)] else [])))] ::
          (if op.action = "index" ∨ op.action = "create" then
            [GoVal.obj (enhanceDocument idMode gen now (op.document.getD GoVal.gnull))]
          else if op.action = "update" then
            [GoVal.obj ((match op.upsertDoc with
              | some u => [("doc", GoVal.obj u), ("doc_as_upsert", GoVal.gbool true)]
              | none => []) ++
              (match op.script with
              | some sc => [("script", GoVal.obj sc)]
              | none => []))]
          else [])) := by
  intro ops
  induction ops with
  | nil => intro _; rfl
  | cons op ops2 ih =>
    intro hdoc
    simp only [List.flatMap_cons]
    rw [bulkActionLine_shape op,
      bulkBodyLines_shape idMode gen now op (hdoc op (List.mem_cons_self op ops2)),
      ih (fun op2 hm h2 => hdoc op2 (List.mem_cons_of_mem op hm) h2)]

/-! ## Claim C3: the bulk wire payload -/

/-- Claim C3: for every non-empty accumulated operation sequence (whose
INDEX/CREATE operations carry a document), `Do`/`Execute` serializes the
payload in insertion order as, per operation, an action line
`{<action>: {"_index": I}}` carrying `"_id"` exactly when the id is
non-empty, followed for INDEX/CREATE by the enhanced document, for UPDATE
by a body containing `doc`/`doc_as_upsert: true` exactly when the upsert
body is present and `script` exactly when a script is present, and no
body line for DELETE. -/
theorem claim_C3 (idMode : IDMode) (gen : String) (now : GoVal)
    (ops : List BulkOperation) (hne : ops ≠ [])
    (hdoc : ∀ op ∈ ops, (op.action = "index" ∨ op.action = "create") → op.document.isSome) :
    bulkExecuteBody idMode gen now ops =
      Except.ok (ops.flatMap (fun op =>
        GoVal.obj [(op.action, GoVal.obj (("_index", GoVal.str op.index) ::
          (if op.id ≠ "" then [("_id", GoVal.str op.id)] else [])))] ::
        (if op.action = "index" ∨ op.action = "create" then
          [GoVal.obj (enhanceDocument idMode gen now (op.document.getD GoVal.gnull))]
        else if op.action = "update" then
          [GoVal.obj ((match op.upsertDoc with
            | some u => [("doc", GoVal.obj u), ("doc_as_upsert", GoVal.gbool true)]
            | none => []) ++
            (match op.script with
            | some sc => [("script", GoVal.obj sc)]
            | none => []))]
        else []))) := by
  obtain ⟨op0, rest, rfl⟩ : ∃ op0 rest, ops = op0 :: rest := by
    cases ops with
    | nil => exact absurd rfl hne
    | cons a b => exact ⟨a, b, rfl⟩
  show Except.ok (bulkBuildBody idMode gen now (op0 :: rest)) = _
  rw [bulkBuildBody, bulkBuildBody_foldl, List.nil_append]
  congr 1
  exact bulkLines_flatMap_spec idMode gen now (op0 :: rest) hdoc

end Elastic

namespace Elastic

/-- Witness for claim C3: a create (with id) followed by a delete
serializes to three lines: action line with id, enhanced document, and an
action line with no body. -/
theorem claim_C3_witness :
    bulkExecuteBody IDMode.elastic "g" (GoVal.str "t")
      [bulkIndexerCreateWithID "users" "u1" (GoVal.obj [("n", GoVal.str "A")]),
       bulkIndexerDelete "users" "u2"] =
      Except.ok
        [ GoVal.obj [("create", GoVal.obj [("_index", GoVal.str "users"), ("_id", GoVal.str "u1")])]
        , GoVal.obj [("n", GoVal.str "A"), ("created_at", GoVal.str "t"), ("updated_at", GoVal.str "t")]
        , GoVal.obj [("delete", GoVal.obj [("_index", GoVal.str "users"), ("_id", GoVal.str "u2")])] ] := by
  have h := claim_C3 IDMode.elastic "g" (GoVal.str "t")
    [bulkIndexerCreateWithID "users" "u1" (GoVal.obj [("n", GoVal.str "A")]),
     bulkIndexerDelete "users" "u2"]
    (by simp)
    (by
      intro op hm hic
      simp only [List.mem_cons, List.mem_singleton] at hm
      rcases hm with rfl | rfl | hm
      · rfl
      · simp [bulkIndexerDelete] at hic
      · simp at hm)
  exact h.trans rfl

/-! ## Helper lemmas for configuration validation -/

set_option maxHeartbeats 1000000 in
theorem normalizeReconnect_preserves (c : Config) :
    (normalizeReconnect c).hosts = c.hosts ∧
    (normalizeReconnect c).cloudID = c.cloudID ∧
    (normalizeReconnect c).connectTimeout = c.connectTimeout ∧
    (normalizeReconnect c).requestTimeout = c.requestTimeout ∧
    (normalizeReconnect c).maxRetries = c.maxRetries ∧
    (normalizeReconnect c).retryOnStatus = c.retryOnStatus ∧
    (normalizeReconnect c).logLevel = c.logLevel ∧
    (normalizeReconnect c).logFormat = c.logFormat ∧
    (normalizeReconnect c).idMode = c.idMode := by
  unfold normalizeReconnect
  refine ⟨?_, ?_, ?_, ?_, ?_, ?_, ?_, ?_, ?_⟩ <;> (dsimp only; split_ifs <;> rfl)

theorem parseStatusCodes_range :
    ∀ (chunks : List String) (codes : List Int),
      parseStatusCodes chunks = Except.ok codes → ∀ c ∈ codes, 100 ≤ c ∧ c ≤ 599 := by
  intro chunks
  induction chunks with
  | nil =>
    intro codes h c hc
    simp only [parseStatusCodes] at h
    injection h with h
    subst h
    simp at hc
  | cons s rest ih =>
    intro codes h c hc
    simp only [parseStatusCodes] at h
    by_cases he : s.trim = ""
    · rw [if_pos he] at h
      exact ih codes h c hc
    · rw [if_neg he] at h
      cases ht : s.trim.toInt? with
      | none => simp only [ht] at h; exact absurd h (by simp)
      | some code =>
        simp only [ht] at h
        by_cases hr : code < 100 ∨ code > 599
        · rw [if_pos hr] at h; exact absurd h (by simp)
        · rw [if_neg hr] at h
          cases hrec : parseStatusCodes rest with
          | error e => simp only [hrec] at h; exact absurd h (by simp)
          | ok codes2 =>
            simp only [hrec] at h
            injection h with h
            subst h
            rcases List.mem_cons.mp hc with rfl | hc2
            · constructor <;> omega
            · exact ih codes2 hrec c hc2

theorem parseRetryOnStatus_range (retryEnv : Option String) (codes : List Int)
    (h : parseRetryOnStatus retryEnv = Except.ok codes) :
    ∀ c ∈ codes, 100 ≤ c ∧ c ≤ 599 := by
  cases retryEnv with
  | none =>
    simp only [parseRetryOnStatus] at h
    injection h with h
    subst h
    intro c hc
    simp only [List.mem_cons, List.mem_singleton] at hc
    rcases hc with rfl | rfl | rfl | rfl | hc
    · constructor <;> omega
    · constructor <;> omega
    · constructor <;> omega
    · constructor <;> omega
    · simp at hc
  | some s =>
    simp only [parseRetryOnStatus] at h
    by_cases hs : s = ""
    · rw [if_pos hs] at h
      injection h with h
      subst h
      intro c hc
      simp only [List.mem_cons, List.mem_singleton] at hc
      rcases hc with rfl | rfl | rfl | rfl | hc
      · constructor <;> omega
      · constructor <;> omega
      · constructor <;> omega
      · constructor <;> omega
      · simp at hc
    · rw [if_neg hs] at h
      exact parseStatusCodes_range _ codes h

theorem validateConfig_ok_spec (x cfg : Config) (h : validateConfig x = Except.ok cfg) :
    (x.cloudID = "" → x.hosts ≠ [] ∧ x.hosts.all hasPort = true) ∧
    0 < x.connectTimeout ∧ 0 < x.requestTimeout ∧ 0 ≤ x.maxRetries ∧
    isValidLogLevel x.logLevel = true ∧ isValidLogFormat x.logFormat = true ∧
    isValidIDMode x.idMode = true ∧ cfg = normalizeReconnect x := by
  obtain ⟨hh, hcid, hct, hrt, hmr, hros, hll, hlf, hid⟩ := normalizeReconnect_preserves x
  unfold validateConfig at h
  split at h
  · exact absurd h (by simp)
  · split at h
    · exact absurd h (by simp)
    · split at h
      · exact absurd h (by simp)
      · split at h
        · exact absurd h (by simp)
        · split at h
          · exact absurd h (by simp)
          · dsimp only at h
            split at h
            · exact absurd h (by simp)
            · split at h
              · exact absurd h (by simp)
              · split at h
                · exact absurd h (by simp)
                · rename_i h1 h2 h3 h4 h5 h6 h7 h8
                  injection h with h
                  rw [hll] at h6
                  rw [hlf] at h7
                  rw [hid] at h8
                  refine ⟨?_, by omega, by omega, by omega, ?_, ?_, ?_, h.symm⟩
                  · intro hcloud
                    constructor
                    · intro hempty
                      exact h1 ⟨hcloud, hempty⟩
                    · by_contra hall
                      exact h2 ⟨hcloud, by simpa using hall⟩
                  · by_contra hbad
                    exact h6 (by simpa using hbad)
                  · by_contra hbad
                    exact h7 (by simpa using hbad)
                  · by_contra hbad
                    exact h8 (by simpa using hbad)

end Elastic

namespace Elastic

/-! ## Claim C5: configuration validation -/

/-- Claim C5 counterexample: a client constructed from the enumerated
option set via `WithConfig` is accepted without any CONFIG_INVALID
rejection even when its config has no hosts, no cloud-id and non-positive
timeouts (`NewClient` never validates a caller-supplied config), although
`validateConfig` rejects that very config. -/
theorem claim_C5_counterexample :
    newClient (loadConfigWithPrefix defaultConfig none) [ClientOption.withConfig emptyConfig] =
      Except.ok emptyConfig ∧
    validateConfig emptyConfig =
      Except.error "ELASTICSEARCH_HOSTS must be set when not using ELASTICSEARCH_CLOUD_ID" :=
  ⟨rfl, rfl⟩

/-- Claim C5 (amended): configuration validation runs when the config is
loaded from environment bindings, and every config it accepts has hosts
with ports when cloud-id is absent, positive connect and request
timeouts, non-negative max-retries, retry-on-status codes within
100..599, and known id-mode, log-level and log-format; a config supplied
directly via `WithConfig` bypasses validation entirely. -/
theorem claim_C5 :
    (∀ (bound : Config) (retryEnv : Option String) (cfg : Config),
      loadConfigWithPrefix bound retryEnv = Except.ok cfg →
      (cfg.cloudID = "" → cfg.hosts ≠ [] ∧ ∀ host ∈ cfg.hosts, hasPort host = true) ∧
      0 < cfg.connectTimeout ∧ 0 < cfg.requestTimeout ∧ 0 ≤ cfg.maxRetries ∧
      (∀ c ∈ cfg.retryOnStatus, 100 ≤ c ∧ c ≤ 599) ∧
      isValidLogLevel cfg.logLevel = true ∧ isValidLogFormat cfg.logFormat = true ∧
      isValidIDMode cfg.idMode = true) ∧
    (∀ (c : Config) (env : Except String Config),
      newClient env [ClientOption.withConfig c] = Except.ok c) := by
  constructor
  · intro bound retryEnv cfg h
    unfold loadConfigWithPrefix at h
    cases hp : parseRetryOnStatus retryEnv with
    | error e => simp only [hp] at h; exact absurd h (by simp)
    | ok codes =>
      simp only [hp] at h
      cases hv : validateConfig { bound with retryOnStatus := codes } with
      | error e => simp only [hv] at h; exact absurd h (by simp)
      | ok config =>
        simp only [hv] at h
        injection h with h
        subst h
        obtain ⟨hport, hctp, hrtp, hmrp, hllv, hlfv, hidv, hnorm⟩ :=
          validateConfig_ok_spec _ config hv
        obtain ⟨hh, hcid, hct, hrt, hmr, hros, hll, hlf, hid⟩ :=
          normalizeReconnect_preserves { bound with retryOnStatus := codes }
        subst hnorm
        refine ⟨?_, ?_, ?_, ?_, ?_, ?_, ?_, ?_⟩
        · intro hcloud
          rw [hcid] at hcloud
          obtain ⟨hne, hall⟩ := hport hcloud
          rw [hh]
          exact ⟨hne, List.all_eq_true.mp hall⟩
        · rw [hct]; exact hctp
        · rw [hrt]; exact hrtp
        · rw [hmr]; exact hmrp
        · rw [hros]
          exact parseRetryOnStatus_range retryEnv codes hp
        · rw [hll]; exact hllv
        · rw [hlf]; exact hlfv
        · rw [hid]; exact hidv
  · intro c env
    rfl

/-- Witness for claim C5: loading the default environment config passes
validation, and the accepted config satisfies the stated constraints. -/
theorem claim_C5_witness :
    0 < ({ defaultConfig with cloudID := "cid", retryOnStatus := [502, 503, 504, 429] }
        : Config).connectTimeout ∧
    (∀ c ∈ ({ defaultConfig with cloudID := "cid", retryOnStatus := [502, 503, 504, 429] }
        : Config).retryOnStatus, 100 ≤ c ∧ c ≤ 599) := by
  have h := claim_C5.1 { defaultConfig with cloudID := "cid" } none
    { defaultConfig with cloudID := "cid", retryOnStatus := [502, 503, 504, 429] } (by rfl)
  exact ⟨h.2.1, h.2.2.2.2.1⟩

end Elastic
